import Mathlib

/-!
Verification of the quantopy financial-returns analytics library.

Series are modelled as `List ℝ` (ordered sequences of simple returns or
prices); frames as `List (List ℝ)` (columns in order, pandas column order).
Floating-point arithmetic is idealised as real arithmetic.  The pandas /
numpy primitives used by the source (`cumprod`, `cummax`, `prod`, `std`,
`pct_change`, elementwise `+ - * /`) operate column-wise and element-wise;
they are embedded as list maps, scans and zips with those semantics.
-/

namespace QP

/-- Period enumeration from `quantopy/periods.py` (the identical enum
appears again in `quantopy/stats/period.py`). -/
inductive Period where
  | DAILY
  | WEEKLY
  | MONTHLY
  | QUARTERLY
  | SEMIANNUAL
  | YEARLY
  deriving DecidableEq

/-- Annualization factor table from `quantopy/periods.py`. -/
def annualization_factor : Period → ℕ
  | Period.DAILY => 252
  | Period.WEEKLY => 52
  | Period.MONTHLY => 12
  | Period.QUARTERLY => 4
  | Period.SEMIANNUAL => 2
  | Period.YEARLY => 1

/-- Running-fold helper: `cumAux f a [x1, x2, ...] = [f a x1, f (f a x1) x2, ...]`.
Used to embed the pandas running reductions `cumprod` and `cummax`. -/
def cumAux (f : ℝ → ℝ → ℝ) (a : ℝ) : List ℝ → List ℝ
  | [] => []
  | x :: xs => f a x :: cumAux f (f a x) xs

/-- Pandas `Series.cumprod`: running product of the entries. -/
noncomputable def cumprod (xs : List ℝ) : List ℝ :=
  cumAux (fun a b => a * b) 1 xs

/-- Pandas `Series.cummax`: running maximum of the entries. -/
noncomputable def cummax : List ℝ → List ℝ
  | [] => []
  | x :: xs => x :: cumAux max x xs

/-- Pandas `Series.mean`: arithmetic average (sum divided by length). -/
noncomputable def meanS (r : List ℝ) : ℝ :=
  r.sum / r.length

/-- Pandas `Series.std()` with the default `ddof=1`: square root of the
sum of squared deviations from the mean divided by (length - 1). -/
noncomputable def sampleStd (r : List ℝ) : ℝ :=
  Real.sqrt ((r.map (fun x => (x - meanS r) ^ 2)).sum / ((r.length : ℝ) - 1))

/-- Model of `scipy.stats.gmean`: geometric mean computed as
`exp(mean(log(xs)))`. -/
noncomputable def scipyGmean (xs : List ℝ) : ℝ :=
  Real.exp ((xs.map Real.log).sum / xs.length)

namespace Stats

/-- Source `quantopy.stats.stats.gmean` on a series:
`(simple_returns + 1).aggregate(scipy.stats.gmean) - 1`. -/
noncomputable def gmean (r : List ℝ) : ℝ :=
  scipyGmean (r.map (· + 1)) - 1

/-- Source `quantopy.stats.stats.annualized` on a series:
`(simple_returns.gmean() + 1) ** ann_factor - 1`. -/
noncomputable def annualized (r : List ℝ) (p : Period) : ℝ :=
  (gmean r + 1) ^ annualization_factor p - 1

/-- Default period of `quantopy.stats.stats.annualized` (`period.MONTHLY`). -/
def annualized_default : Period := Period.MONTHLY

/-- Source `quantopy.stats.stats.effect_vol` on a series:
`simple_returns.std() * np.sqrt(ann_factor)`. -/
noncomputable def effect_vol (r : List ℝ) (p : Period) : ℝ :=
  sampleStd r * Real.sqrt (annualization_factor p)

/-- Default period of `quantopy.stats.stats.effect_vol` (`period.MONTHLY`). -/
def effect_vol_default : Period := Period.MONTHLY

/-- Source `quantopy.stats.stats.total_return` on a series:
`(simple_returns + 1).prod() - 1`. -/
noncomputable def total_return (r : List ℝ) : ℝ :=
  (r.map (· + 1)).prod - 1

/-- Source `quantopy.stats.financial.cumulated` on a series:
`(simple_returns + 1).cumprod()`. -/
noncomputable def cumulated (r : List ℝ) : List ℝ :=
  cumprod (r.map (· + 1))

/-- Source `quantopy.stats.financial.sharpe` on a series:
`(simple_returns.annualized(period) - riskfree_rate) / simple_returns.effect_vol(period)`. -/
noncomputable def sharpe (r : List ℝ) (riskfree_rate : ℝ) (p : Period) : ℝ :=
  (annualized r p - riskfree_rate) / effect_vol r p

/-- Default period of `quantopy.stats.financial.sharpe` (`period.MONTHLY`). -/
def sharpe_default : Period := Period.MONTHLY

/-- Source `quantopy.stats.financial.drawdown` on a series:
wealth index `(1 + simple_returns).cumprod()`, previous peaks
`wealth_index.cummax()`, and `(wealth_index - previous_peaks) / previous_peaks`. -/
noncomputable def drawdown (r : List ℝ) : List ℝ :=
  let wealth_index := cumprod (r.map (fun x => 1 + x))
  let previous_peaks := cummax wealth_index
  List.zipWith (fun a b => a / b)
    (List.zipWith (fun a b => a - b) wealth_index previous_peaks) previous_peaks

/-- Source `quantopy.stats.financial.get_simple_returns_from_price` on a series:
`price.pct_change()[1:]`, i.e. `price[t] / price[t-1] - 1` for `t ≥ 1`. -/
noncomputable def get_simple_returns_from_price (price : List ℝ) : List ℝ :=
  List.zipWith (fun prev cur => cur / prev - 1) price price.tail

end Stats

namespace Rets

/-- Source `quantopy.returns.effect`:
`(nominal_rate + 1) ** ann_factor - 1`. -/
noncomputable def effect (nominal_rate : ℝ) (p : Period) : ℝ :=
  (nominal_rate + 1) ^ annualization_factor p - 1

/-- Default period of `quantopy.returns.effect` (`periods.Period.DAILY`). -/
def effect_default : Period := Period.DAILY

/-- Application of `quantopy.returns.effect` with the caller omitting the
period argument, so that the source default is used. -/
noncomputable def effect_with_default (nominal_rate : ℝ) : ℝ :=
  effect nominal_rate effect_default

/-- Source `quantopy.returns.effect_vol`:
`nominal_vol * np.sqrt(ann_factor)`. -/
noncomputable def effect_vol (nominal_vol : ℝ) (p : Period) : ℝ :=
  nominal_vol * Real.sqrt (annualization_factor p)

/-- Default period of `quantopy.returns.effect_vol` (`periods.Period.DAILY`). -/
def effect_vol_default : Period := Period.DAILY

/-- Application of `quantopy.returns.effect_vol` with the caller omitting
the period argument, so that the source default is used. -/
noncomputable def effect_vol_with_default (nominal_vol : ℝ) : ℝ :=
  effect_vol nominal_vol effect_vol_default

/-- Source `quantopy.returns.gmean`:
`(simple_returns + 1).prod() ** (1 / n_periods) - 1` where
`n_periods = simple_returns.shape[0]`. -/
noncomputable def gmean (r : List ℝ) : ℝ :=
  (r.map (· + 1)).prod ^ ((1 : ℝ) / (r.length : ℝ)) - 1

end Rets

namespace Stats

/-- Pandas elementwise frame operation (`df + 1`, `df - 1`, `1 + df`):
applies a scalar function to every entry of every column. -/
def frameMap (f : ℝ → ℝ) (F : List (List ℝ)) : List (List ℝ) :=
  F.map (List.map f)

/-- Pandas column-wise reduction (`df.aggregate(g)`, `df.prod()`,
`df.std()`, `df.mean()`): applies a series reduction to each column,
yielding one scalar per column (a series indexed by column label). -/
def frameAgg (g : List ℝ → ℝ) (F : List (List ℝ)) : List ℝ :=
  F.map g

/-- Pandas elementwise frame-frame operation (`df1 - df2`, `df1 / df2`
on aligned frames): combines matching entries column by column. -/
def frameZip (f : ℝ → ℝ → ℝ) (F G : List (List ℝ)) : List (List ℝ) :=
  List.zipWith (List.zipWith f) F G

/-- Source `quantopy.stats.stats.gmean` on a frame:
`(simple_returns + 1).aggregate(scipy.stats.gmean) - 1`. -/
noncomputable def gmeanF (F : List (List ℝ)) : List ℝ :=
  (frameAgg scipyGmean (frameMap (· + 1) F)).map (· - 1)

/-- Pandas `DataFrame.mean` as used by `ReturnDataFrame.mean`:
arithmetic average of each column. -/
noncomputable def meanF (F : List (List ℝ)) : List ℝ :=
  frameAgg meanS F

/-- Source `quantopy.stats.stats.annualized` on a frame:
`(simple_returns.gmean() + 1) ** ann_factor - 1`, the outer operations
acting elementwise on the per-column gmean series. -/
noncomputable def annualizedF (F : List (List ℝ)) (p : Period) : List ℝ :=
  (gmeanF F).map (fun g => (g + 1) ^ annualization_factor p - 1)

/-- Source `quantopy.stats.stats.effect_vol` on a frame:
`simple_returns.std() * np.sqrt(ann_factor)`. -/
noncomputable def effect_volF (F : List (List ℝ)) (p : Period) : List ℝ :=
  (frameAgg sampleStd F).map (fun s => s * Real.sqrt (annualization_factor p))

/-- Source `quantopy.stats.financial.sharpe` on a frame:
`(simple_returns.annualized(period) - riskfree_rate) / simple_returns.effect_vol(period)`,
series-minus-scalar then elementwise series division. -/
noncomputable def sharpeF (F : List (List ℝ)) (riskfree_rate : ℝ) (p : Period) : List ℝ :=
  List.zipWith (fun a b => a / b)
    ((annualizedF F p).map (fun x => x - riskfree_rate)) (effect_volF F p)

/-- Source `quantopy.stats.stats.total_return` on a frame:
`(simple_returns + 1).prod() - 1`. -/
noncomputable def total_returnF (F : List (List ℝ)) : List ℝ :=
  (frameAgg List.prod (frameMap (· + 1) F)).map (· - 1)

/-- Source `quantopy.stats.financial.cumulated` on a frame:
`(simple_returns + 1).cumprod()`, column-wise running product. -/
noncomputable def cumulatedF (F : List (List ℝ)) : List (List ℝ) :=
  (frameMap (· + 1) F).map cumprod

/-- Source `quantopy.stats.financial.drawdown` on a frame: wealth index
`(1 + simple_returns).cumprod()`, previous peaks `wealth_index.cummax()`
(both column-wise), and `(wealth_index - previous_peaks) / previous_peaks`. -/
noncomputable def drawdownF (F : List (List ℝ)) : List (List ℝ) :=
  let wealth_index := (frameMap (fun x => 1 + x) F).map cumprod
  let previous_peaks := wealth_index.map cummax
  frameZip (fun a b => a / b)
    (frameZip (fun a b => a - b) wealth_index previous_peaks) previous_peaks

end Stats

namespace Random

/-- Source `quantopy.random.generator.returns`, with the underlying draw
from `np.random.normal` (an opaque random source, out of scope) passed in
as `normal_draw`.  Mirrors the dispatch on `method`: "normal" returns the
draw, "lognormal" returns `np.exp(draw) - 1`, anything else raises
`ValueError(f"Invalid method [method]")`. -/
noncomputable def generator_returns (normal_draw : List ℝ) (method : String) :
    Except String (List ℝ) :=
  if method = "normal" then Except.ok normal_draw
  else if method = "lognormal" then Except.ok (normal_draw.map (fun x => Real.exp x - 1))
  else Except.error ("Invalid method " ++ method)

end Random

/-! Helper lemmas. -/

theorem cumAux_mul_getLast (xs : List ℝ) :
    ∀ a : ℝ, xs ≠ [] →
      (cumAux (fun u v => u * v) a xs).getLast? = some (a * xs.prod) := by
  induction xs with
  | nil => intro a h; exact absurd rfl h
  | cons x xs ih =>
    intro a _
    cases xs with
    | nil => simp [cumAux]
    | cons y ys =>
      have h2 := ih (a * x) (by simp)
      simp only [cumAux] at h2 ⊢
      rw [List.getLast?_cons_cons, h2]
      simp [mul_assoc]

theorem zipWith_getElem?_of (f : ℝ → ℝ → ℝ) (p : List ℝ) :
    ∀ (q : List ℝ) (t : ℕ) (a b : ℝ), p[t]? = some a → q[t]? = some b →
      (List.zipWith f p q)[t]? = some (f a b) := by
  induction p with
  | nil => intro q t a b h1; simp at h1
  | cons x xs ih =>
    intro q t a b h1 h2
    cases q with
    | nil => simp at h2
    | cons y ys =>
      cases t with
      | zero => simp_all
      | succ t => simpa using ih ys t a b (by simpa using h1) (by simpa using h2)

theorem cumAux_mul_pos (xs : List ℝ) :
    ∀ a : ℝ, 0 < a → (∀ x ∈ xs, 0 < x) →
      ∀ w ∈ cumAux (fun u v => u * v) a xs, 0 < w := by
  induction xs with
  | nil => intro a _ _ w hw; simp [cumAux] at hw
  | cons x xs ih =>
    intro a ha hpos w hw
    simp only [cumAux, List.mem_cons] at hw
    have hax : 0 < a * x := mul_pos ha (hpos x (by simp))
    rcases hw with rfl | hw
    · exact hax
    · exact ih (a * x) hax (fun y hy => hpos y (by simp [hy])) w hw

theorem dd_aux_nonpos (ws : List ℝ) :
    ∀ m : ℝ, 0 < m → (∀ w ∈ ws, 0 < w) →
      ∀ v ∈ List.zipWith (fun a b => a / b)
          (List.zipWith (fun a b => a - b) ws (cumAux max m ws)) (cumAux max m ws),
        v ≤ 0 := by
  induction ws with
  | nil => intro m _ _ v hv; simp [cumAux] at hv
  | cons w ws ih =>
    intro m hm hpos v hv
    simp only [cumAux, List.zipWith_cons_cons, List.mem_cons] at hv
    have hw : 0 < w := hpos w (by simp)
    have hmw : 0 < max m w := lt_max_of_lt_right hw
    rcases hv with rfl | hv
    · have hsub : w - max m w ≤ 0 := by
        have := le_max_right m w
        linarith
      exact div_nonpos_iff.mpr (Or.inr ⟨hsub, hmw.le⟩)
    · exact ih (max m w) hmw (fun y hy => hpos y (by simp [hy])) v hv

theorem dd_cummax_nonpos (ws : List ℝ) (hpos : ∀ w ∈ ws, 0 < w) :
    ∀ v ∈ List.zipWith (fun a b => a / b)
        (List.zipWith (fun a b => a - b) ws (cummax ws)) (cummax ws), v ≤ 0 := by
  intro v hv
  cases ws with
  | nil => simp [cummax] at hv
  | cons w ws =>
    simp only [cummax, List.zipWith_cons_cons, List.mem_cons] at hv
    rcases hv with rfl | hv
    · simp
    · exact dd_aux_nonpos ws w (hpos w (by simp)) (fun y hy => hpos y (by simp [hy])) v hv

/-- C2 counterexample: at the return series `[-2, 1/2]` (a return below
-1, so the wealth index turns negative) the code's drawdown at index 1 is
`+1/2`, which is not ≤ 0. -/
theorem drawdown_positive_at_negative_wealth :
    (Stats.drawdown [-2, (1 : ℝ) / 2])[1]? = some (1 / 2)
    ∧ ¬ ((1 : ℝ) / 2 ≤ 0) := by
  constructor
  · have h1 : ([-2, (1 : ℝ) / 2].map (fun x => 1 + x)) = [-1, 3 / 2] := by norm_num
    have h2 : cumprod [-1, (3 : ℝ) / 2] = [-1, -(3 / 2)] := by
      simp only [cumprod, cumAux]
      norm_num
    have h3 : cummax [-1, -(3 : ℝ) / 2] = [-1, -1] := by
      simp only [cummax, cumAux]
      rw [max_eq_left (by norm_num : (-(3 : ℝ) / 2) ≤ -1)]
    rw [Stats.drawdown, h1]
    rw [show (-(3:ℝ)/2) = -((3:ℝ)/2) by norm_num] at h3
    rw [h2, h3]
    simp only [List.zipWith_cons_cons, List.zipWith_nil_left, List.zipWith_nil_right]
    norm_num
  · norm_num

/-- C2 amended: for every return series whose entries all exceed -1
(equivalently, positive prices / positive wealth), the drawdown series is
0 at index 0 and every drawdown value is ≤ 0. -/
theorem drawdown_nonpos :
    ∀ r : List ℝ, (∀ x ∈ r, -1 < x) →
      (r ≠ [] → (Stats.drawdown r)[0]? = some 0)
      ∧ (∀ v ∈ Stats.drawdown r, v ≤ 0) := by
  intro r hr
  have hpos : ∀ y ∈ r.map (fun x => 1 + x), 0 < y := by
    intro y hy
    rcases List.mem_map.mp hy with ⟨x, hx, rfl⟩
    have := hr x hx
    linarith
  have hw : ∀ w ∈ cumprod (r.map (fun x => 1 + x)), 0 < w :=
    cumAux_mul_pos _ 1 one_pos hpos
  constructor
  · intro hne
    cases r with
    | nil => exact absurd rfl hne
    | cons x rs =>
      simp only [Stats.drawdown, cumprod, List.map_cons, cumAux, cummax,
        List.zipWith_cons_cons, List.getElem?_cons_zero]
      simp
  · intro v hv
    rw [Stats.drawdown] at hv
    exact dd_cummax_nonpos _ hw v hv

/-- Witness for C2 (amended) at the concrete series `[1/10]`. -/
theorem drawdown_nonpos_witness :
    (∀ x ∈ [(1 : ℝ) / 10], -1 < x)
    ∧ (Stats.drawdown [(1 : ℝ) / 10])[0]? = some 0 :=
  ⟨by norm_num, (drawdown_nonpos [(1 : ℝ) / 10] (by norm_num)).1 (by simp)⟩

/-- C4: for every per-period rate x and period p, `effect(x, p)` equals
`(1+x) ^ annualization_factor(p) - 1` with factors DAILY=252, WEEKLY=52,
MONTHLY=12, QUARTERLY=4, SEMIANNUAL=2, YEARLY=1; concretely
`effect(0.03, QUARTERLY) ≈ 0.1255` and `effect(0.01, MONTHLY) ≈ 0.126825`. -/
theorem effect_compounds_to_annual :
    (∀ (x : ℝ) (p : Period), Rets.effect x p = (1 + x) ^ annualization_factor p - 1)
    ∧ annualization_factor Period.DAILY = 252
    ∧ annualization_factor Period.WEEKLY = 52
    ∧ annualization_factor Period.MONTHLY = 12
    ∧ annualization_factor Period.QUARTERLY = 4
    ∧ annualization_factor Period.SEMIANNUAL = 2
    ∧ annualization_factor Period.YEARLY = 1
    ∧ |Rets.effect (3 / 100) Period.QUARTERLY - 1255 / 10000| < 1 / 10000
    ∧ |Rets.effect (1 / 100) Period.MONTHLY - 126825 / 1000000| < 1 / 1000000 := by
  refine ⟨fun x p => by simp only [Rets.effect]; ring, rfl, rfl, rfl, rfl, rfl, rfl, ?_, ?_⟩ <;>
    · simp only [Rets.effect, annualization_factor]
      rw [abs_lt]
      norm_num

/-- C6: `total_return(r)` is the product of `(1+r_i)` minus 1, it is 0 on
the empty series (empty-product convention), and for nonempty `r` it equals
the last element of `cumulated(r)` minus 1. -/
theorem total_return_eq_cumulated_last :
    (∀ r : List ℝ, Stats.total_return r = (r.map (· + 1)).prod - 1)
    ∧ Stats.total_return [] = 0
    ∧ (∀ r : List ℝ, r ≠ [] →
        (Stats.cumulated r).getLast? = some (Stats.total_return r + 1)) := by
  refine ⟨fun r => rfl, by simp [Stats.total_return], fun r h => ?_⟩
  have hmap : r.map (· + 1) ≠ [] := by simpa using h
  rw [Stats.cumulated, cumprod, cumAux_mul_getLast _ 1 hmap, Stats.total_return]
  simp

/-- Witness for C6 at the concrete series `[1/2]`. -/
theorem total_return_eq_cumulated_last_witness :
    ([(1 : ℝ) / 2] ≠ [])
    ∧ (Stats.cumulated [(1 : ℝ) / 2]).getLast? = some (Stats.total_return [(1 : ℝ) / 2] + 1) :=
  ⟨by simp, total_return_eq_cumulated_last.2.2 [(1 : ℝ) / 2] (by simp)⟩

/-- C7: `returns_from_price` maps prices to `price[t+1]/price[t] - 1`,
its output length is input length minus one, empty and single-element
inputs give the empty series, and `[80, 85, 90]` maps to approximately
`[0.0625, 0.058824]`. -/
theorem returns_from_price_spec :
    (∀ (p : List ℝ) (t : ℕ) (a b : ℝ), p[t]? = some a → p[t + 1]? = some b →
        (Stats.get_simple_returns_from_price p)[t]? = some (b / a - 1))
    ∧ (∀ p : List ℝ, (Stats.get_simple_returns_from_price p).length = p.length - 1)
    ∧ Stats.get_simple_returns_from_price [] = []
    ∧ (∀ x : ℝ, Stats.get_simple_returns_from_price [x] = [])
    ∧ Stats.get_simple_returns_from_price [80, 85, 90] = [1 / 16, 1 / 17]
    ∧ |(1 / 16 : ℝ) - 625 / 10000| = 0
    ∧ |(1 / 17 : ℝ) - 58824 / 1000000| < 1 / 1000000 := by
  refine ⟨fun p t a b h1 h2 => ?_, fun p => ?_, rfl, fun x => rfl, ?_, ?_, ?_⟩
  · rw [Stats.get_simple_returns_from_price]
    exact zipWith_getElem?_of _ p p.tail t a b h1 (by rw [List.getElem?_tail]; exact h2)
  · rw [Stats.get_simple_returns_from_price]
    simp [List.length_zipWith]
  · rw [Stats.get_simple_returns_from_price]
    norm_num [List.zipWith]
  · norm_num
  · rw [abs_lt]; constructor <;> norm_num

/-- Witness for C7 at prices `[80, 85, 90]` and index 0. -/
theorem returns_from_price_spec_witness :
    (([80, 85, 90] : List ℝ)[0]? = some 80)
    ∧ (([80, 85, 90] : List ℝ)[1]? = some 85)
    ∧ (Stats.get_simple_returns_from_price [80, 85, 90])[0]? = some (85 / 80 - 1) :=
  ⟨rfl, rfl, returns_from_price_spec.1 [80, 85, 90] 0 80 85 rfl rfl⟩

/-- C9 counterexample: `quantopy.returns.effect` called without a period
uses DAILY, not MONTHLY — at nominal rate 1 the two results differ. -/
theorem effect_default_period_not_monthly :
    Rets.effect_with_default 1 = Rets.effect 1 Period.DAILY
    ∧ Rets.effect_with_default 1 ≠ Rets.effect 1 Period.MONTHLY := by
  refine ⟨rfl, ?_⟩
  simp only [Rets.effect_with_default, Rets.effect_default, Rets.effect, annualization_factor]
  norm_num

/-- C9 amended: the stats-layer summaries `annualized`, `effect_vol`, and
`sharpe` default to MONTHLY, while `quantopy.returns.effect` and
`quantopy.returns.effect_vol` default to DAILY. -/
theorem period_defaults :
    Stats.annualized_default = Period.MONTHLY
    ∧ Stats.effect_vol_default = Period.MONTHLY
    ∧ Stats.sharpe_default = Period.MONTHLY
    ∧ Rets.effect_default = Period.DAILY
    ∧ Rets.effect_vol_default = Period.DAILY
    ∧ (∀ x : ℝ, Rets.effect_with_default x = Rets.effect x Period.DAILY)
    ∧ (∀ x : ℝ, Rets.effect_vol_with_default x = Rets.effect_vol x Period.DAILY) :=
  ⟨rfl, rfl, rfl, rfl, rfl, fun _ => rfl, fun _ => rfl⟩

/-- C10: the geometric-mean-based annualization `stats.annualized(r, p)`
coincides with compounding the geometric mean by the raw-rate variant,
`effect(gmean(r), p)`, for every series and period. -/
theorem annualized_eq_effect_of_gmean :
    ∀ (r : List ℝ) (p : Period), Stats.annualized r p = Rets.effect (Stats.gmean r) p :=
  fun _ _ => rfl

/-- C5: `sharpe(r, rf, p)` is the annualized (geometric-mean-based) rate
minus the risk-free rate, divided by the effective annual volatility,
which is the sample standard deviation (ddof = 1) scaled by the square
root of the annualization factor. -/
theorem sharpe_formula :
    (∀ (r : List ℝ) (rf : ℝ) (p : Period),
        Stats.sharpe r rf p =
          (Stats.annualized r p - rf) / (sampleStd r * Real.sqrt (annualization_factor p)))
    ∧ (∀ (r : List ℝ) (rf : ℝ) (p : Period),
        Stats.sharpe r rf p =
          ((Stats.gmean r + 1) ^ annualization_factor p - 1 - rf)
            / (sampleStd r * Real.sqrt (annualization_factor p))) :=
  ⟨fun _ _ _ => rfl, fun _ _ _ => rfl⟩

theorem log_list_prod (xs : List ℝ) :
    (∀ x ∈ xs, 0 < x) → Real.log xs.prod = (xs.map Real.log).sum := by
  induction xs with
  | nil => intro; simp
  | cons x xs ih =>
    intro h
    have hx : 0 < x := h x (by simp)
    have hxs : 0 < xs.prod := List.prod_pos (fun y hy => h y (by simp [hy]))
    simp [List.prod_cons, Real.log_mul hx.ne' hxs.ne', ih (fun y hy => h y (by simp [hy]))]

theorem rpow_fifth_bounds (P a b : ℝ) (hP : 0 < P) (hb : 0 ≤ b)
    (h1 : a ^ 5 < P) (h2 : P < b ^ 5) :
    a < P ^ ((1 : ℝ) / 5) ∧ P ^ ((1 : ℝ) / 5) < b := by
  have hx : (P ^ ((1 : ℝ) / 5)) ^ (5 : ℕ) = P := by
    rw [← Real.rpow_natCast (P ^ ((1 : ℝ) / 5)) 5, ← Real.rpow_mul hP.le]
    push_cast
    rw [show (1 : ℝ) / 5 * 5 = 1 by norm_num, Real.rpow_one]
  have hxnn : 0 ≤ P ^ ((1 : ℝ) / 5) := Real.rpow_nonneg hP.le _
  constructor
  · exact lt_of_pow_lt_pow_left₀ 5 hxnn (by rw [hx]; exact h1)
  · exact lt_of_pow_lt_pow_left₀ 5 hb (by rw [hx]; exact h2)

theorem stats_gmean_log_form (r : List ℝ) :
    Stats.gmean r = Real.exp ((r.map (fun x => Real.log (1 + x))).sum / r.length) - 1 := by
  rw [Stats.gmean, scipyGmean, List.map_map, List.length_map]
  have h : (Real.log ∘ fun x => x + 1) = fun x : ℝ => Real.log (1 + x) := by
    funext x
    simp [add_comm]
  rw [h]

theorem stats_gmean_eq_rets_gmean (r : List ℝ) (hpos : ∀ x ∈ r, 0 < 1 + x) :
    Stats.gmean r = Rets.gmean r := by
  have hpos' : ∀ y ∈ r.map (· + 1), 0 < y := by
    intro y hy
    rcases List.mem_map.mp hy with ⟨x, hx, rfl⟩
    have := hpos x hx
    linarith
  have hP : 0 < (r.map (· + 1)).prod := List.prod_pos hpos'
  rw [Stats.gmean, Rets.gmean, scipyGmean, Real.rpow_def_of_pos hP,
    log_list_prod _ hpos', List.length_map, mul_one_div]

/-- C3: the code's gmean is the geometric mean of `(1+r)` minus 1 — equal
both to `exp(mean(log(1+r))) - 1` and to the n-th root of the product of
`(1+r_i)` minus 1 — and on `[0.9, 0.1, 0.2, 0.3, -0.9]` it is
approximately -0.200802. -/
theorem gmean_is_geometric_mean :
    (∀ r : List ℝ, r ≠ [] → (∀ x ∈ r, 0 < 1 + x) →
        Stats.gmean r = Real.exp ((r.map (fun x => Real.log (1 + x))).sum / r.length) - 1
        ∧ Stats.gmean r = Rets.gmean r)
    ∧ |Stats.gmean [9 / 10, 1 / 10, 2 / 10, 3 / 10, -(9 / 10)] + 200802 / 1000000|
        < 1 / 2000 := by
  refine ⟨fun r _ hpos => ⟨stats_gmean_log_form r, stats_gmean_eq_rets_gmean r hpos⟩, ?_⟩
  have hg : Stats.gmean [9 / 10, 1 / 10, 2 / 10, 3 / 10, -(9 / 10)]
      = Rets.gmean [9 / 10, 1 / 10, 2 / 10, 3 / 10, -(9 / 10)] :=
    stats_gmean_eq_rets_gmean _ (by norm_num)
  have hprod : (([9 / 10, 1 / 10, 2 / 10, 3 / 10, -(9 / 10)] : List ℝ).map (· + 1)).prod
      = 8151 / 25000 := by
    norm_num
  have hlen : ((([9 / 10, 1 / 10, 2 / 10, 3 / 10, -(9 / 10)] : List ℝ)).length : ℝ) = 5 := by
    norm_num
  rw [hg, Rets.gmean, hprod, hlen]
  have hb := rpow_fifth_bounds (8151 / 25000) (7991 / 10000) (7993 / 10000)
    (by norm_num) (by norm_num) (by norm_num) (by norm_num)
  rw [abs_lt]
  constructor
  · linarith [hb.1]
  · linarith [hb.2]

/-- Witness for C3 at the concrete series `[1]`. -/
theorem gmean_is_geometric_mean_witness :
    (([(1 : ℝ)] ≠ []) ∧ (∀ x ∈ [(1 : ℝ)], 0 < 1 + x))
    ∧ (Stats.gmean [(1 : ℝ)]
          = Real.exp ((([(1 : ℝ)].map (fun x => Real.log (1 + x))).sum / [(1 : ℝ)].length)) - 1
        ∧ Stats.gmean [(1 : ℝ)] = Rets.gmean [(1 : ℝ)]) :=
  ⟨⟨by simp, by norm_num⟩, gmean_is_geometric_mean.1 [(1 : ℝ)] (by simp) (by norm_num)⟩

theorem zipWith_map_both {α β γ δ : Type} (k : β → γ → δ) (g : α → β) (h : α → γ) :
    ∀ l : List α, List.zipWith k (l.map g) (l.map h) = l.map fun x => k (g x) (h x) := by
  intro l
  induction l with
  | nil => rfl
  | cons x xs ih => simp [ih]

theorem gmeanF_eq_map (F : List (List ℝ)) : Stats.gmeanF F = F.map Stats.gmean := by
  simp only [Stats.gmeanF, Stats.frameAgg, Stats.frameMap, List.map_map]
  rfl

theorem meanF_eq_map (F : List (List ℝ)) : Stats.meanF F = F.map meanS := rfl

theorem annualizedF_eq_map (F : List (List ℝ)) (p : Period) :
    Stats.annualizedF F p = F.map (fun c => Stats.annualized c p) := by
  simp only [Stats.annualizedF, gmeanF_eq_map, List.map_map]
  rfl

theorem effect_volF_eq_map (F : List (List ℝ)) (p : Period) :
    Stats.effect_volF F p = F.map (fun c => Stats.effect_vol c p) := by
  simp only [Stats.effect_volF, Stats.frameAgg, List.map_map]
  rfl

theorem sharpeF_eq_map (F : List (List ℝ)) (rf : ℝ) (p : Period) :
    Stats.sharpeF F rf p = F.map (fun c => Stats.sharpe c rf p) := by
  rw [Stats.sharpeF, annualizedF_eq_map, effect_volF_eq_map, List.map_map,
    zipWith_map_both]
  rfl

theorem total_returnF_eq_map (F : List (List ℝ)) :
    Stats.total_returnF F = F.map Stats.total_return := by
  simp only [Stats.total_returnF, Stats.frameAgg, Stats.frameMap, List.map_map]
  rfl

theorem cumulatedF_eq_map (F : List (List ℝ)) :
    Stats.cumulatedF F = F.map Stats.cumulated := by
  simp only [Stats.cumulatedF, Stats.frameMap, List.map_map]
  rfl

theorem drawdownF_eq_map (F : List (List ℝ)) :
    Stats.drawdownF F = F.map Stats.drawdown := by
  simp only [Stats.drawdownF, Stats.frameZip, Stats.frameMap, List.map_map,
    zipWith_map_both]
  rfl

/-- C1: column isolation — applying each summary function to a frame and
selecting column i gives the same value as the series form of that
function applied to column i alone, for gmean, mean, annualized/effect,
effect_vol, sharpe, drawdown, cumulated, and total_return. -/
theorem frame_column_isolation :
    ∀ (F : List (List ℝ)) (i : ℕ) (col : List ℝ), F[i]? = some col →
      (Stats.gmeanF F)[i]? = some (Stats.gmean col)
      ∧ (Stats.meanF F)[i]? = some (meanS col)
      ∧ (∀ p : Period, (Stats.annualizedF F p)[i]? = some (Stats.annualized col p))
      ∧ (∀ p : Period, (Stats.effect_volF F p)[i]? = some (Stats.effect_vol col p))
      ∧ (∀ (rf : ℝ) (p : Period), (Stats.sharpeF F rf p)[i]? = some (Stats.sharpe col rf p))
      ∧ (Stats.drawdownF F)[i]? = some (Stats.drawdown col)
      ∧ (Stats.cumulatedF F)[i]? = some (Stats.cumulated col)
      ∧ (Stats.total_returnF F)[i]? = some (Stats.total_return col) := by
  intro F i col h
  refine ⟨?_, ?_, fun p => ?_, fun p => ?_, fun rf p => ?_, ?_, ?_, ?_⟩
  · rw [gmeanF_eq_map, List.getElem?_map, h]; rfl
  · rw [meanF_eq_map, List.getElem?_map, h]; rfl
  · rw [annualizedF_eq_map, List.getElem?_map, h]; rfl
  · rw [effect_volF_eq_map, List.getElem?_map, h]; rfl
  · rw [sharpeF_eq_map, List.getElem?_map, h]; rfl
  · rw [drawdownF_eq_map, List.getElem?_map, h]; rfl
  · rw [cumulatedF_eq_map, List.getElem?_map, h]; rfl
  · rw [total_returnF_eq_map, List.getElem?_map, h]; rfl

/-- Witness for C1 at the one-column frame `[[0]]`. -/
theorem frame_column_isolation_witness :
    (([[(0 : ℝ)]] : List (List ℝ))[0]? = some [0])
    ∧ (Stats.gmeanF [[(0 : ℝ)]])[0]? = some (Stats.gmean [0])
    ∧ (Stats.drawdownF [[(0 : ℝ)]])[0]? = some (Stats.drawdown [0]) :=
  ⟨rfl, (frame_column_isolation [[(0 : ℝ)]] 0 [0] rfl).1,
    (frame_column_isolation [[(0 : ℝ)]] 0 [0] rfl).2.2.2.2.2.1⟩

/-- C8: the synthetic generator accepts exactly the methods "normal" and
"lognormal"; any other method name produces the invalid-method error. -/
theorem generator_returns_method_check :
    (∀ (draw : List ℝ) (method : String), method = "normal" ∨ method = "lognormal" →
        ∃ v, Random.generator_returns draw method = Except.ok v)
    ∧ (∀ (draw : List ℝ) (method : String), method ≠ "normal" → method ≠ "lognormal" →
        Random.generator_returns draw method = Except.error ("Invalid method " ++ method)) := by
  constructor
  · rintro draw method (rfl | rfl)
    · exact ⟨draw, rfl⟩
    · refine ⟨draw.map (fun x => Real.exp x - 1), ?_⟩
      rw [Random.generator_returns, if_neg (by decide), if_pos rfl]
  · intro draw method h1 h2
    rw [Random.generator_returns, if_neg h1, if_neg h2]

/-- Witness for C8: "normal" is accepted, "gbm" is rejected with the
invalid-method error. -/
theorem generator_returns_method_check_witness :
    (("normal" : String) = "normal" ∨ ("normal" : String) = "lognormal")
    ∧ (∃ v, Random.generator_returns [] "normal" = Except.ok v)
    ∧ Random.generator_returns [] "gbm" = Except.error ("Invalid method " ++ "gbm") :=
  ⟨Or.inl rfl, generator_returns_method_check.1 [] "normal" (Or.inl rfl),
    generator_returns_method_check.2 [] "gbm" (by decide) (by decide)⟩

end QP
